import Mathlib

/-!
Shallow embedding of the Grid Station Image Processor
(src/grid_image_processor/processor.py) in Lean 4.

Images are modelled as a width, a height, a PIL-style mode tag and a pixel
function returning an RGBA quadruple of Nats; coordinates are Nats,
rectangle coordinates are Ints (Python ints are signed and the bracket
inset subtraction can go negative).  The PIL operations used by the code
are modelled from library semantics: convert to RGBA replicates
luminance and defaults alpha to 255; crop rejects a box whose right is
less than its left (or lower less than upper) and zero-pads outside the
source; resize always returns an image of the requested size in the same
mode; paste with an 8-bit mask blends with the MULDIV255 fixed-point
formula.
-/

namespace GridProc

/-- PIL image modes that can reach the processor from a PNG decode:
grayscale, grayscale with alpha, truecolor, truecolor with alpha. -/
inductive Mode : Type where
  | L : Mode
  | LA : Mode
  | RGB : Mode
  | RGBA : Mode
deriving DecidableEq, Repr

/-- An RGBA sample; for modes without some channel the convention of
`toRGBA` fixes the missing channels. -/
structure Pixel : Type where
  r : Nat
  g : Nat
  b : Nat
  a : Nat
deriving DecidableEq, Repr

/-- An image: dimensions, mode, and a total pixel map. -/
structure Img : Type where
  width : Nat
  height : Nat
  mode : Mode
  pix : Nat → Nat → Pixel

/-- Rectangle (left, top, right, bottom) as returned by the locator;
right and bottom are inclusive pixel indices.  Components are Ints
because the bracket inset arithmetic is done on Python ints. -/
structure Rect : Type where
  left : Int
  top : Int
  right : Int
  bottom : Int
deriving DecidableEq, Repr

/-- PIL convert to RGBA, per mode: L replicates the stored value into
r, g, b with opaque alpha; LA keeps its alpha; RGB gains opaque alpha;
RGBA is unchanged. -/
def toRGBA (m : Mode) (p : Pixel) : Pixel :=
  match m with
  | .L => ⟨p.r, p.r, p.r, 255⟩
  | .LA => ⟨p.r, p.r, p.r, p.a⟩
  | .RGB => ⟨p.r, p.g, p.b, 255⟩
  | .RGBA => p

/-- img.convert(RGBA). -/
def convertRGBA (img : Img) : Img :=
  ⟨img.width, img.height, .RGBA, fun x y => toRGBA img.mode (img.pix x y)⟩

/-- Lines 29-30 of processor.py: the locator converts its argument to
RGBA unless it already is RGBA. -/
def locatorInput (img : Img) : Img :=
  if img.mode == .RGBA then img else convertRGBA img

/-- Line 39 etc.: a bracket pixel has r, g, b all exactly 0. -/
def isBlack (p : Pixel) : Bool :=
  p.r == 0 && p.g == 0 && p.b == 0

/-- Line 105: a background pixel has r, g, b all above 250. -/
def isBackground (p : Pixel) : Bool :=
  decide (250 < p.r) && decide (250 < p.g) && decide (250 < p.b)

/-- The list of a Python range(a, b, -1): a, a-1, ..., b+1 (empty when
a is at most b). -/
def downRange (a b : Nat) : List Nat :=
  (List.range (a - b)).map (fun i => a - i)

/-- A corner scan: outer loop over ys, inner loop over xs, returning the
first coordinate whose pixel is pure black, exactly as the Python double
loop with its two break statements. -/
def scanFirst (img : Img) (ys xs : List Nat) : Option (Nat × Nat) :=
  ys.findSome? fun y =>
    xs.findSome? fun x =>
      if isBlack (img.pix x y) then some (x, y) else none

/-- Lines 35-43: top-left scan, rows 0..min(50,h)-1, cols 0..min(50,w)-1. -/
def topLeftScan (img : Img) : Option (Nat × Nat) :=
  scanFirst img (List.range (min 50 img.height)) (List.range (min 50 img.width))

/-- Lines 45-53: bottom-right scan, rows range(h-1, max(h-50,0), -1),
cols range(w-1, max(w-50,0), -1).  Nat subtraction coincides with the
Python max(…,0). -/
def bottomRightScan (img : Img) : Option (Nat × Nat) :=
  scanFirst img (downRange (img.height - 1) (img.height - 50))
    (downRange (img.width - 1) (img.width - 50))

/-- Lines 55-63: top-right scan. -/
def topRightScan (img : Img) : Option (Nat × Nat) :=
  scanFirst img (List.range (min 50 img.height))
    (downRange (img.width - 1) (img.width - 50))

/-- Lines 65-73: bottom-left scan. -/
def bottomLeftScan (img : Img) : Option (Nat × Nat) :=
  scanFirst img (downRange (img.height - 1) (img.height - 50))
    (List.range (min 50 img.width))

/-- Lines 76-87: the initial rectangle from top-left and bottom-right,
then the optional top-right and bottom-left reconciliation updates. -/
def reconcile (off : Int) (tl br : Nat × Nat)
    (tr bl : Option (Nat × Nat)) : Rect :=
  let left : Int := (tl.1 : Int) + off
  let top : Int := (tl.2 : Int) + off
  let right : Int := (br.1 : Int) - off
  let bottom : Int := (br.2 : Int) - off
  let right := match tr with
    | some p => max right ((p.1 : Int) - off)
    | none => right
  let top := match tr with
    | some p => min top ((p.2 : Int) + off)
    | none => top
  let left := match bl with
    | some p => min left ((p.1 : Int) + off)
    | none => left
  let bottom := match bl with
    | some p => max bottom ((p.2 : Int) - off)
    | none => bottom
  ⟨left, top, right, bottom⟩

/-- The row-major list of all pixel coordinates of an image, as visited
by the nested loops of _find_content_bounds_fallback. -/
def allCoords (img : Img) : List (Nat × Nat) :=
  (List.range img.height).flatMap fun y =>
    (List.range img.width).map fun x => (x, y)

/-- Lines 102-109: the loop body of _find_content_bounds_fallback: a
non-background pixel widens the running min/max bounds. -/
def fbStep (img : Img) (r : Rect) (c : Nat × Nat) : Rect :=
  if isBackground (img.pix c.1 c.2) then r
  else ⟨min r.left (c.1 : Int), min r.top (c.2 : Int),
        max r.right (c.1 : Int), max r.bottom (c.2 : Int)⟩

/-- Lines 97-111: full-image scan folding each non-background pixel into
running min/max bounds, started from (width, height, 0, 0). -/
def findContentBoundsFallback (img : Img) : Rect :=
  (allCoords img).foldl (fbStep img) ⟨(img.width : Int), (img.height : Int), 0, 0⟩

/-- Lines 27-95: find_bracket_intersections.  Requires top-left and
bottom-right candidates; validates right > left and bottom > top; on any
failure falls back to the content-bounds scan of the converted image. -/
def findBracketIntersections (off : Int) (img0 : Img) : Rect :=
  let img := locatorInput img0
  match topLeftScan img, bottomRightScan img with
  | some tl, some br =>
      let r := reconcile off tl br (topRightScan img) (bottomLeftScan img)
      if r.left < r.right && r.top < r.bottom then r
      else findContentBoundsFallback img
  | _, _ => findContentBoundsFallback img

/-- Processor configuration: target_size and bracket_offset from
GridImageProcessor.init. -/
structure Config : Type where
  targetSize : Nat × Nat
  bracketOffset : Int

/-- Constructor defaults: target_size (670, 366), bracket_offset 2. -/
def defaultConfig : Config := ⟨(670, 366), 2⟩

/-- Pillow Image.crop: rejects a box whose right coordinate is below
its left (ValueError, and likewise lower below upper); otherwise the
result has size (right-left, bottom-top), keeps the mode, takes source
pixels where the box overlaps the source and zero-fill elsewhere. -/
def cropImage (img : Img) (l t r b : Int) : Except String Img :=
  if r < l then .error "Coordinate right is less than left"
  else if b < t then .error "Coordinate lower is less than upper"
  else .ok ⟨(r - l).toNat, (b - t).toNat, img.mode, fun x y =>
    let sx : Int := l + (x : Int)
    let sy : Int := t + (y : Int)
    if 0 ≤ sx && sx < (img.width : Int) && 0 ≤ sy && sy < (img.height : Int)
    then img.pix sx.toNat sy.toNat
    else ⟨0, 0, 0, 0⟩⟩

/-- Pillow Image.resize: always returns an image of the requested size
in the source mode, for any source size (an empty source resamples to a
zero image without error).  The Lanczos resampling arithmetic itself is
not needed by any claim, so the pixel map here is a simple coordinate
scaling; only the dimensions and the mode of the result are relied on. -/
def resizeImage (img : Img) (size : Nat × Nat) : Img :=
  ⟨size.1, size.2, img.mode, fun x y =>
    img.pix (x * img.width / size.1) (y * img.height / size.2)⟩

/-- Pillow fixed-point MULDIV255(a, b): (t >> 8 + t) >> 8 with
t = a * b + 128; the rounding used by paste with an 8-bit mask. -/
def mulDiv255 (a b : Nat) : Nat :=
  ((a * b + 128) / 256 + (a * b + 128)) / 256

/-- One channel of paste with mask: blend of the background value and
the source value weighted by the mask. -/
def blendChannel (bg src mask : Nat) : Nat :=
  mulDiv255 bg (255 - mask) + mulDiv255 src mask

/-- Lines 142-144: new RGB white background, paste the image with its
alpha band as mask.  Result is a 3-channel RGB image (alpha stored
opaque by the RGB convention of this model). -/
def flattenWhite (img : Img) : Img :=
  ⟨img.width, img.height, .RGB, fun x y =>
    let p := img.pix x y
    ⟨blendChannel 255 p.r p.a, blendChannel 255 p.g p.a,
     blendChannel 255 p.b p.a, 255⟩⟩

/-- Line 141: the flatten step runs only when the mode of the resized image
is exactly RGBA. -/
def flattenStep (img : Img) : Img :=
  if img.mode == .RGBA then flattenWhite img else img

/-- Lines 125-156: process_image on an already-attempted decode.  The
try block catches the decode error and the crop error and any failure of a step; saving is not modelled (no claim depends on encode failures).
Returns the final image or the error that was caught. -/
def processImageResult (cfg : Config) (opened : Except String Img) :
    Except String Img :=
  match opened with
  | .error e => .error e
  | .ok img =>
    let bounds := findBracketIntersections cfg.bracketOffset img
    match cropImage img bounds.left bounds.top (bounds.right + 1)
        (bounds.bottom + 1) with
    | .error e => .error e
    | .ok cropped => .ok (flattenStep (resizeImage cropped cfg.targetSize))

/-- The boolean outcome of process_image: True on success, False when
any exception was caught. -/
def processImage (cfg : Config) (opened : Except String Img) : Bool :=
  match processImageResult cfg opened with
  | .ok _ => true
  | .error _ => false

/-- Line 172: a directory entry is processed when its lowercased name
ends in .png. -/
def isPngName (f : String) : Bool :=
  List.isSuffixOf ".png".data (f.data.map Char.toLower)

/-- Lines 158-206: batch_process over a directory listing; openFile
models Image.open on each path.  Folds the per-file boolean outcomes
into (successful, failed); the empty-listing early return (0, 0)
coincides with the initial value of the fold. -/
def batchProcess (cfg : Config) (openFile : String → Except String Img)
    (files : List String) : Nat × Nat :=
  (files.filter isPngName).foldl
    (fun acc f =>
      if processImage cfg (openFile f) then (acc.1 + 1, acc.2)
      else (acc.1, acc.2 + 1))
    (0, 0)

/-- The mode of a processing outcome, when it succeeded. -/
def resultMode (r : Except String Img) : Option Mode :=
  match r with
  | .ok img => some img.mode
  | .error _ => none

/-- An opaque white pixel. -/
def whitePix : Pixel := ⟨255, 255, 255, 255⟩

/-- An opaque pure black pixel. -/
def blackPix : Pixel := ⟨0, 0, 0, 255⟩

/-- A white image of the given size and mode with pure black pixels
exactly at the listed coordinates. -/
def mkImg (w h : Nat) (m : Mode) (blacks : List (Nat × Nat)) : Img :=
  ⟨w, h, m, fun x y => if (x, y) ∈ blacks then blackPix else whitePix⟩

/-- The 800x600 scenario image: black brackets exactly at (10,10),
(790,10), (10,590), (790,590). -/
def img800 : Img := mkImg 800 600 .RGB [(10, 10), (790, 10), (10, 590), (790, 590)]

/-- A 100x100 image whose only black pixel is (50,50). -/
def img100 : Img := mkImg 100 100 .RGB [(50, 50)]

/-- A 10x10 image with black pixels at (0,0) and (9,9); processes
successfully under the default configuration. -/
def img10 : Img := mkImg 10 10 .RGB [(0, 0), (9, 9)]

/-- A 6x6 image with black pixels at (0,0) and (5,5); with a huge
bracket offset its reconciliation is degenerate. -/
def img6 : Img := mkImg 6 6 .RGB [(0, 0), (5, 5)]

/-- A 1x1 all-white RGB image. -/
def imgWhite1 : Img := mkImg 1 1 .RGB []

/-- A 2x2 all-white RGB image. -/
def imgWhite2 : Img := mkImg 2 2 .RGB []

/-- A 1x1 grayscale (mode L) black image. -/
def imgL1 : Img := ⟨1, 1, .L, fun _ _ => ⟨0, 0, 0, 255⟩⟩

/-- A 1x1 grayscale-with-alpha (mode LA) image whose single pixel is a
fully transparent mid gray. -/
def imgLA1 : Img := ⟨1, 1, .LA, fun _ _ => ⟨7, 7, 7, 0⟩⟩

/-- A 2x1 RGBA image with one fully opaque and one fully transparent
pixel. -/
def imgRGBA2 : Img :=
  ⟨2, 1, .RGBA, fun x _ => if x == 0 then ⟨10, 20, 30, 255⟩ else ⟨1, 2, 3, 0⟩⟩

/-- The RGBA reading of a pixel of an image, as the locator sees it
after its convert call. -/
def pixelRGBA (img : Img) (x y : Nat) : Pixel :=
  toRGBA img.mode (img.pix x y)

/-- A PIL mode carrying an alpha channel. -/
def hasAlpha (m : Mode) : Bool :=
  m == .LA || m == .RGBA

/-- The image of a successful outcome, with a default for the error
case. -/
def outputOf (r : Except String Img) (dflt : Img) : Img :=
  match r with
  | .ok img => img
  | .error _ => dflt

/-- The rectangle reconciled inside find_bracket_intersections from
given top-left and bottom-right candidates of an image, with its actual
top-right and bottom-left scan results. -/
def reconciledOf (off : Int) (img : Img) (tl br : Nat × Nat) : Rect :=
  reconcile off tl br (topRightScan (locatorInput img))
    (bottomLeftScan (locatorInput img))

/-- Modelled from the spec (section 4.1 step 1): the bottom-right search
window claimed by the specification, a square of side min(50, dimension)
anchored at the bottom-right corner, scanned rows bottom-to-top and
columns right-to-left. -/
def claimedBottomRightScan (img : Img) : Option (Nat × Nat) :=
  scanFirst img
    ((List.range (min 50 img.height)).map fun i => img.height - 1 - i)
    ((List.range (min 50 img.width)).map fun i => img.width - 1 - i)

/-- Modelled from the spec (section 4.2): process normalizes the input
to RGBA first and then crops, resizes and flattens that normalized
image (the resized image then always carries alpha, so the flatten
always applies). -/
def processSpecC2 (cfg : Config) (img0 : Img) : Except String Img :=
  let img := convertRGBA img0
  let bounds := findBracketIntersections cfg.bracketOffset img
  match cropImage img bounds.left bounds.top (bounds.right + 1)
      (bounds.bottom + 1) with
  | .error e => .error e
  | .ok cropped => .ok (flattenStep (resizeImage cropped cfg.targetSize))

/-- The rectangle R is the componentwise min/max bounding box of the
non-background pixels of the image, lies inside the image, and is
attained on every side by a non-background pixel. -/
def fallbackCharacter (img : Img) (R : Rect) : Prop :=
  (0 ≤ R.left ∧ R.left ≤ R.right ∧ R.right ≤ (img.width : Int) - 1 ∧
    0 ≤ R.top ∧ R.top ≤ R.bottom ∧ R.bottom ≤ (img.height : Int) - 1) ∧
  (∀ x y, x < img.width → y < img.height →
    isBackground (img.pix x y) = false →
    R.left ≤ (x : Int) ∧ (x : Int) ≤ R.right ∧
      R.top ≤ (y : Int) ∧ (y : Int) ≤ R.bottom) ∧
  (∃ x y, x < img.width ∧ y < img.height ∧
    isBackground (img.pix x y) = false ∧ R.left = (x : Int)) ∧
  (∃ x y, x < img.width ∧ y < img.height ∧
    isBackground (img.pix x y) = false ∧ R.right = (x : Int)) ∧
  (∃ x y, x < img.width ∧ y < img.height ∧
    isBackground (img.pix x y) = false ∧ R.top = (y : Int)) ∧
  (∃ x y, x < img.width ∧ y < img.height ∧
    isBackground (img.pix x y) = false ∧ R.bottom = (y : Int))

/-- The rectangle r satisfies the claimed reconciliation equations for
candidates tl, br and optional tr, bl at inset off, and is extend-only
with respect to the initial rectangle from tl and br. -/
def reconcileClaim (off : Int) (tl br : Nat × Nat)
    (tr bl : Option (Nat × Nat)) (r : Rect) : Prop :=
  (r.left = match bl with
    | some p => min ((tl.1 : Int) + off) ((p.1 : Int) + off)
    | none => (tl.1 : Int) + off) ∧
  (r.top = match tr with
    | some p => min ((tl.2 : Int) + off) ((p.2 : Int) + off)
    | none => (tl.2 : Int) + off) ∧
  (r.right = match tr with
    | some p => max ((br.1 : Int) - off) ((p.1 : Int) - off)
    | none => (br.1 : Int) - off) ∧
  (r.bottom = match bl with
    | some p => max ((br.2 : Int) - off) ((p.2 : Int) - off)
    | none => (br.2 : Int) - off) ∧
  r.left ≤ (tl.1 : Int) + off ∧ r.top ≤ (tl.2 : Int) + off ∧
  (br.1 : Int) - off ≤ r.right ∧ (br.2 : Int) - off ≤ r.bottom

/-! Helper lemmas. -/

theorem mem_downRange {a b y : Nat} : y ∈ downRange a b ↔ b < y ∧ y ≤ a := by
  simp only [downRange, List.mem_map, List.mem_range]
  constructor
  · rintro ⟨i, hi, rfl⟩
    omega
  · rintro ⟨h1, h2⟩
    exact ⟨a - y, by omega, by omega⟩

theorem mem_allCoords {img : Img} {c : Nat × Nat} :
    c ∈ allCoords img ↔ c.1 < img.width ∧ c.2 < img.height := by
  obtain ⟨x, y⟩ := c
  simp only [allCoords, List.mem_flatMap, List.mem_map, List.mem_range,
    Prod.mk.injEq]
  constructor
  · rintro ⟨y', hy, x', hx, rfl, rfl⟩
    exact ⟨hx, hy⟩
  · rintro ⟨hx, hy⟩
    exact ⟨y, hy, x, hx, rfl, rfl⟩

theorem scanFirst_eq_none {img : Img} {ys xs : List Nat} :
    scanFirst img ys xs = none ↔
      ∀ y ∈ ys, ∀ x ∈ xs, isBlack (img.pix x y) = false := by
  simp only [scanFirst, List.findSome?_eq_none_iff]
  constructor
  · intro h y hy x hx
    have h2 := h y hy x hx
    by_cases hb : isBlack (img.pix x y) = true
    · rw [if_pos hb] at h2
      cases h2
    · simpa using hb
  · intro h y hy x hx
    rw [if_neg]
    simp [h y hy x hx]

theorem scanFirst_mem {img : Img} {ys xs : List Nat} {p : Nat × Nat}
    (h : scanFirst img ys xs = some p) :
    p.1 ∈ xs ∧ p.2 ∈ ys ∧ isBlack (img.pix p.1 p.2) = true := by
  obtain ⟨y, hy, hy2⟩ := List.exists_of_findSome?_eq_some h
  obtain ⟨x, hx, hx2⟩ := List.exists_of_findSome?_eq_some hy2
  by_cases hb : isBlack (img.pix x y) = true
  · rw [if_pos hb] at hx2
    cases hx2
    exact ⟨hx, hy, hb⟩
  · rw [if_neg hb] at hx2
    cases hx2

theorem fb_foldl_mono (img : Img) (l : List (Nat × Nat)) :
    ∀ r0 : Rect,
      (l.foldl (fbStep img) r0).left ≤ r0.left ∧
      (l.foldl (fbStep img) r0).top ≤ r0.top ∧
      r0.right ≤ (l.foldl (fbStep img) r0).right ∧
      r0.bottom ≤ (l.foldl (fbStep img) r0).bottom := by
  induction l with
  | nil => intro r0; simp
  | cons a t ih =>
    intro r0
    simp only [List.foldl_cons]
    have h := ih (fbStep img r0 a)
    have hs : (fbStep img r0 a).left ≤ r0.left ∧
        (fbStep img r0 a).top ≤ r0.top ∧
        r0.right ≤ (fbStep img r0 a).right ∧
        r0.bottom ≤ (fbStep img r0 a).bottom := by
      unfold fbStep
      split
      · exact ⟨le_refl _, le_refl _, le_refl _, le_refl _⟩
      · exact ⟨min_le_left _ _, min_le_left _ _, le_max_left _ _,
          le_max_left _ _⟩
    exact ⟨le_trans h.1 hs.1, le_trans h.2.1 hs.2.1,
      le_trans hs.2.2.1 h.2.2.1, le_trans hs.2.2.2 h.2.2.2⟩

theorem fb_foldl_encloses (img : Img) (l : List (Nat × Nat))
    {c : Nat × Nat} (hbg : isBackground (img.pix c.1 c.2) = false) :
    ∀ r0 : Rect, c ∈ l →
      (l.foldl (fbStep img) r0).left ≤ (c.1 : Int) ∧
      (c.1 : Int) ≤ (l.foldl (fbStep img) r0).right ∧
      (l.foldl (fbStep img) r0).top ≤ (c.2 : Int) ∧
      (c.2 : Int) ≤ (l.foldl (fbStep img) r0).bottom := by
  induction l with
  | nil => intro r0 hc; cases hc
  | cons a t ih =>
    intro r0 hc
    simp only [List.foldl_cons]
    rcases List.mem_cons.mp hc with h | h
    · subst h
      have hm := fb_foldl_mono img t (fbStep img r0 c)
      have hs : (fbStep img r0 c).left ≤ (c.1 : Int) ∧
          (c.1 : Int) ≤ (fbStep img r0 c).right ∧
          (fbStep img r0 c).top ≤ (c.2 : Int) ∧
          (c.2 : Int) ≤ (fbStep img r0 c).bottom := by
        unfold fbStep
        rw [hbg]
        simp only [Bool.false_eq_true, if_false]
        exact ⟨min_le_right _ _, le_max_right _ _, min_le_right _ _,
          le_max_right _ _⟩
      exact ⟨le_trans hm.1 hs.1, le_trans hs.2.1 hm.2.2.1,
        le_trans hm.2.1 hs.2.2.1, le_trans hs.2.2.2 hm.2.2.2⟩
    · exact ih (fbStep img r0 a) h

theorem fb_foldl_provenance (img : Img) (l : List (Nat × Nat)) :
    ∀ r0 : Rect,
      ((l.foldl (fbStep img) r0).left = r0.left ∨
        ∃ c ∈ l, isBackground (img.pix c.1 c.2) = false ∧
          (l.foldl (fbStep img) r0).left = (c.1 : Int)) ∧
      ((l.foldl (fbStep img) r0).right = r0.right ∨
        ∃ c ∈ l, isBackground (img.pix c.1 c.2) = false ∧
          (l.foldl (fbStep img) r0).right = (c.1 : Int)) ∧
      ((l.foldl (fbStep img) r0).top = r0.top ∨
        ∃ c ∈ l, isBackground (img.pix c.1 c.2) = false ∧
          (l.foldl (fbStep img) r0).top = (c.2 : Int)) ∧
      ((l.foldl (fbStep img) r0).bottom = r0.bottom ∨
        ∃ c ∈ l, isBackground (img.pix c.1 c.2) = false ∧
          (l.foldl (fbStep img) r0).bottom = (c.2 : Int)) := by
  induction l with
  | nil => intro r0; simp
  | cons a t ih =>
    intro r0
    simp only [List.foldl_cons]
    by_cases hbg : isBackground (img.pix a.1 a.2) = true
    · have ha : fbStep img r0 a = r0 := by
        unfold fbStep
        rw [hbg]
        simp
      rw [ha]
      have h := ih r0
      refine ⟨?_, ?_, ?_, ?_⟩
      · rcases h.1 with h1 | ⟨c, hc, hb, he⟩
        · exact Or.inl h1
        · exact Or.inr ⟨c, List.mem_cons_of_mem _ hc, hb, he⟩
      · rcases h.2.1 with h1 | ⟨c, hc, hb, he⟩
        · exact Or.inl h1
        · exact Or.inr ⟨c, List.mem_cons_of_mem _ hc, hb, he⟩
      · rcases h.2.2.1 with h1 | ⟨c, hc, hb, he⟩
        · exact Or.inl h1
        · exact Or.inr ⟨c, List.mem_cons_of_mem _ hc, hb, he⟩
      · rcases h.2.2.2 with h1 | ⟨c, hc, hb, he⟩
        · exact Or.inl h1
        · exact Or.inr ⟨c, List.mem_cons_of_mem _ hc, hb, he⟩
    · have hbf : isBackground (img.pix a.1 a.2) = false := by
        simpa using hbg
      have ha : fbStep img r0 a =
          ⟨min r0.left (a.1 : Int), min r0.top (a.2 : Int),
            max r0.right (a.1 : Int), max r0.bottom (a.2 : Int)⟩ := by
        unfold fbStep
        rw [hbf]
        simp
      rw [ha]
      have h := ih ⟨min r0.left (a.1 : Int), min r0.top (a.2 : Int),
        max r0.right (a.1 : Int), max r0.bottom (a.2 : Int)⟩
      refine ⟨?_, ?_, ?_, ?_⟩
      · rcases h.1 with h1 | ⟨c, hc, hb, he⟩
        · rcases min_choice r0.left (a.1 : Int) with hm | hm
          · exact Or.inl (by rw [h1]; exact hm)
          · exact Or.inr ⟨a, List.mem_cons_self _ _, hbf, by rw [h1]; exact hm⟩
        · exact Or.inr ⟨c, List.mem_cons_of_mem _ hc, hb, he⟩
      · rcases h.2.1 with h1 | ⟨c, hc, hb, he⟩
        · rcases max_choice r0.right (a.1 : Int) with hm | hm
          · exact Or.inl (by rw [h1]; exact hm)
          · exact Or.inr ⟨a, List.mem_cons_self _ _, hbf, by rw [h1]; exact hm⟩
        · exact Or.inr ⟨c, List.mem_cons_of_mem _ hc, hb, he⟩
      · rcases h.2.2.1 with h1 | ⟨c, hc, hb, he⟩
        · rcases min_choice r0.top (a.2 : Int) with hm | hm
          · exact Or.inl (by rw [h1]; exact hm)
          · exact Or.inr ⟨a, List.mem_cons_self _ _, hbf, by rw [h1]; exact hm⟩
        · exact Or.inr ⟨c, List.mem_cons_of_mem _ hc, hb, he⟩
      · rcases h.2.2.2 with h1 | ⟨c, hc, hb, he⟩
        · rcases max_choice r0.bottom (a.2 : Int) with hm | hm
          · exact Or.inl (by rw [h1]; exact hm)
          · exact Or.inr ⟨a, List.mem_cons_self _ _, hbf, by rw [h1]; exact hm⟩
        · exact Or.inr ⟨c, List.mem_cons_of_mem _ hc, hb, he⟩

theorem fb_foldl_const (img : Img) (l : List (Nat × Nat)) :
    ∀ r0 : Rect, (∀ c ∈ l, isBackground (img.pix c.1 c.2) = true) →
      l.foldl (fbStep img) r0 = r0 := by
  induction l with
  | nil => intro r0 _; rfl
  | cons a t ih =>
    intro r0 h
    simp only [List.foldl_cons]
    have ha : fbStep img r0 a = r0 := by
      unfold fbStep
      rw [h a (List.mem_cons_self _ _)]
      simp
    rw [ha]
    exact ih r0 fun c hc => h c (List.mem_cons_of_mem _ hc)

theorem batch_count_aux (cfg : Config) (openFile : String → Except String Img) :
    ∀ (l : List String) (s f : Nat),
      (l.foldl
          (fun acc g =>
            if processImage cfg (openFile g) then (acc.1 + 1, acc.2)
            else (acc.1, acc.2 + 1))
          (s, f)).1 +
        (l.foldl
          (fun acc g =>
            if processImage cfg (openFile g) then (acc.1 + 1, acc.2)
            else (acc.1, acc.2 + 1))
          (s, f)).2 = s + f + l.length := by
  intro l
  induction l with
  | nil => intro s f; simp
  | cons a t ih =>
    intro s f
    simp only [List.foldl_cons, List.length_cons]
    by_cases h : processImage cfg (openFile a) = true
    · rw [if_pos h]
      have := ih (s + 1) f
      omega
    · rw [if_neg h]
      have := ih s (f + 1)
      omega

theorem flattenStep_width (img : Img) : (flattenStep img).width = img.width := by
  unfold flattenStep
  split <;> rfl

theorem flattenStep_height (img : Img) : (flattenStep img).height = img.height := by
  unfold flattenStep
  split <;> rfl

theorem flattenStep_mode (img : Img) :
    (flattenStep img).mode = if img.mode = .RGBA then Mode.RGB else img.mode := by
  unfold flattenStep
  by_cases h : img.mode = .RGBA
  · simp [h, flattenWhite]
  · simp [h]

theorem mulDiv255_right_zero (a : Nat) : mulDiv255 a 0 = 0 := by
  simp [mulDiv255]

theorem mulDiv255_255 (v : Nat) (h : v ≤ 255) : mulDiv255 v 255 = v := by
  unfold mulDiv255
  omega

theorem blendChannel_transparent (src : Nat) : blendChannel 255 src 0 = 255 := by
  unfold blendChannel
  rw [mulDiv255_right_zero]
  decide

theorem blendChannel_mask255 (src : Nat) (h : src ≤ 255) :
    blendChannel 255 src 255 = src := by
  unfold blendChannel
  rw [mulDiv255_255 src h]
  simp [mulDiv255]

theorem convertRGBA_rgba (img : Img) (h : img.mode = .RGBA) :
    convertRGBA img = img := by
  obtain ⟨w, ht, m, p⟩ := img
  simp only [convertRGBA]
  dsimp at h
  subst h
  congr

theorem locatorInput_eq (img : Img) : locatorInput img = convertRGBA img := by
  unfold locatorInput
  by_cases h : img.mode = .RGBA
  · simp [h, convertRGBA_rgba img h]
  · simp [h]

theorem locatorInput_pix (img : Img) (x y : Nat) :
    (locatorInput img).pix x y = pixelRGBA img x y := by
  rw [locatorInput_eq]
  rfl

theorem locatorInput_width (img : Img) : (locatorInput img).width = img.width := by
  rw [locatorInput_eq]
  rfl

theorem locatorInput_height (img : Img) : (locatorInput img).height = img.height := by
  rw [locatorInput_eq]
  rfl

/-! Claim theorems. -/

/-- C5: for the 800x600 image whose only pure-black pixels are at
(10,10), (790,10), (10,590), (790,590), locating with inset 2 returns
the rectangle (left 12, top 12, right 788, bottom 588), and process
crops with the Pillow box (12, 12, 789, 589), i.e. the half-open region
spanning x in [12, 789) and y in [12, 589), 777 x 577 pixels. -/
theorem claim_C5_scenario :
    findBracketIntersections 2 img800 = ⟨12, 12, 788, 588⟩ ∧
    processImageResult defaultConfig (.ok img800) =
      (match cropImage img800 12 12 789 589 with
        | .error e => .error e
        | .ok cropped => .ok (flattenStep (resizeImage cropped (670, 366)))) ∧
    (∃ cropped, cropImage img800 12 12 789 589 = .ok cropped ∧
      cropped.width = 777 ∧ cropped.height = 577) := by
  refine ⟨by decide, ?_, ?_⟩
  · rfl
  · exact ⟨_, rfl, rfl, rfl⟩

/-- C4: whenever the top-left and bottom-right scans both produce a
candidate, the rectangle reconciled by find_bracket_intersections
satisfies the claimed equations: the initial rectangle is the two
diagonal candidates inset by the offset, and the optional top-right and
bottom-left candidates only extend it (right = max, top = min,
left = min, bottom = max), never tighten it; and
find_bracket_intersections validates exactly that rectangle. -/
theorem claim_C4_reconciliation (off : Int) (img : Img) (tl br : Nat × Nat)
    (htl : topLeftScan (locatorInput img) = some tl)
    (hbr : bottomRightScan (locatorInput img) = some br) :
    reconcileClaim off tl br (topRightScan (locatorInput img))
      (bottomLeftScan (locatorInput img)) (reconciledOf off img tl br) ∧
    findBracketIntersections off img =
      (if (reconciledOf off img tl br).left < (reconciledOf off img tl br).right &&
          (reconciledOf off img tl br).top < (reconciledOf off img tl br).bottom
        then reconciledOf off img tl br
        else findContentBoundsFallback (locatorInput img)) := by
  constructor
  · unfold reconcileClaim reconciledOf
    rcases topRightScan (locatorInput img) with _ | tr <;>
      rcases bottomLeftScan (locatorInput img) with _ | bl
    · exact ⟨rfl, rfl, rfl, rfl, le_refl _, le_refl _, le_refl _, le_refl _⟩
    · exact ⟨rfl, rfl, rfl, rfl, min_le_left _ _, le_refl _, le_refl _,
        le_max_left _ _⟩
    · exact ⟨rfl, rfl, rfl, rfl, le_refl _, min_le_left _ _, le_max_left _ _,
        le_refl _⟩
    · exact ⟨rfl, rfl, rfl, rfl, min_le_left _ _, min_le_left _ _,
        le_max_left _ _, le_max_left _ _⟩
  · simp only [findBracketIntersections, reconciledOf, htl, hbr]

/-- C4 witness: the reconciliation claim evaluated on the 800x600
scenario image with its diagonal candidates (10,10) and (790,590). -/
theorem claim_C4_witness :
    reconcileClaim 2 (10, 10) (790, 590) (topRightScan (locatorInput img800))
      (bottomLeftScan (locatorInput img800))
      (reconciledOf 2 img800 (10, 10) (790, 590)) ∧
    findBracketIntersections 2 img800 =
      (if (reconciledOf 2 img800 (10, 10) (790, 590)).left <
            (reconciledOf 2 img800 (10, 10) (790, 590)).right &&
          (reconciledOf 2 img800 (10, 10) (790, 590)).top <
            (reconciledOf 2 img800 (10, 10) (790, 590)).bottom
        then reconciledOf 2 img800 (10, 10) (790, 590)
        else findContentBoundsFallback (locatorInput img800)) :=
  claim_C4_reconciliation 2 img800 (10, 10) (790, 590) (by decide) (by decide)

/-- C8: any successful processing outcome has exactly the configured
target dimensions, whatever the input and whichever detection path
produced the crop rectangle. -/
theorem claim_C8_target_size (cfg : Config) (opened : Except String Img)
    (out : Img) (h : processImageResult cfg opened = .ok out) :
    out.width = cfg.targetSize.1 ∧ out.height = cfg.targetSize.2 := by
  rcases opened with e | img
  · simp [processImageResult] at h
  · simp only [processImageResult] at h
    rcases hc : cropImage img (findBracketIntersections cfg.bracketOffset img).left
        (findBracketIntersections cfg.bracketOffset img).top
        ((findBracketIntersections cfg.bracketOffset img).right + 1)
        ((findBracketIntersections cfg.bracketOffset img).bottom + 1) with e | c
    · rw [hc] at h
      cases h
    · rw [hc] at h
      cases h
      exact ⟨flattenStep_width _, flattenStep_height _⟩

/-- C8 witness: processing the 10x10 bracket image under the default
configuration yields a 670x366 output. -/
theorem claim_C8_witness :
    (outputOf (processImageResult defaultConfig (.ok img10)) img10).width = 670 ∧
    (outputOf (processImageResult defaultConfig (.ok img10)) img10).height = 366 :=
  claim_C8_target_size defaultConfig (.ok img10) _ rfl

/-- C6: the locator returns the bracket-based rectangle only when both
diagonal candidates were found and the reconciled rectangle satisfies
right > left and bottom > top; in every other case (a missing diagonal
candidate, or a degenerate reconciliation) it falls back to the
content-bounds scan of the same (RGBA-converted) image. -/
theorem claim_C6_degenerate_fallback (off : Int) (img : Img) :
    ((topLeftScan (locatorInput img) = none ∨
        bottomRightScan (locatorInput img) = none) →
      findBracketIntersections off img =
        findContentBoundsFallback (locatorInput img)) ∧
    (∀ tl br, topLeftScan (locatorInput img) = some tl →
      bottomRightScan (locatorInput img) = some br →
      (((reconciledOf off img tl br).right ≤ (reconciledOf off img tl br).left ∨
          (reconciledOf off img tl br).bottom ≤ (reconciledOf off img tl br).top) →
        findBracketIntersections off img =
          findContentBoundsFallback (locatorInput img)) ∧
      ((reconciledOf off img tl br).left < (reconciledOf off img tl br).right →
        (reconciledOf off img tl br).top < (reconciledOf off img tl br).bottom →
        findBracketIntersections off img = reconciledOf off img tl br)) := by
  constructor
  · intro h
    rcases ht : topLeftScan (locatorInput img) with _ | tl <;>
      rcases hb : bottomRightScan (locatorInput img) with _ | br
    · simp [findBracketIntersections, ht, hb]
    · simp [findBracketIntersections, ht, hb]
    · simp [findBracketIntersections, ht, hb]
    · rcases h with h | h
      · rw [ht] at h
        simp at h
      · rw [hb] at h
        simp at h
  · intro tl br htl hbr
    have hif : findBracketIntersections off img =
        (if (reconciledOf off img tl br).left < (reconciledOf off img tl br).right &&
            (reconciledOf off img tl br).top < (reconciledOf off img tl br).bottom
          then reconciledOf off img tl br
          else findContentBoundsFallback (locatorInput img)) := by
      simp only [findBracketIntersections, reconciledOf, htl, hbr]
    constructor
    · intro hdeg
      have hc : ¬((decide ((reconciledOf off img tl br).left <
            (reconciledOf off img tl br).right) &&
          decide ((reconciledOf off img tl br).top <
            (reconciledOf off img tl br).bottom)) = true) := by
        simp only [Bool.and_eq_true, decide_eq_true_eq, not_and]
        intro h1 h2
        rcases hdeg with h | h <;> omega
      rw [hif, if_neg hc]
    · intro h1 h2
      have hc : ((decide ((reconciledOf off img tl br).left <
            (reconciledOf off img tl br).right) &&
          decide ((reconciledOf off img tl br).top <
            (reconciledOf off img tl br).bottom)) = true) := by
        simp only [Bool.and_eq_true, decide_eq_true_eq]
        exact ⟨h1, h2⟩
      rw [hif, if_pos hc]

/-- C6 witness: on the 6x6 image with brackets at (0,0) and (5,5), a
bracket offset of 500 reconciles to a degenerate rectangle and the
locator returns the content-bounds fallback of the converted image. -/
theorem claim_C6_witness :
    findBracketIntersections 500 img6 =
      findContentBoundsFallback (locatorInput img6) :=
  (((claim_C6_degenerate_fallback 500 img6).2 (0, 0) (5, 5) (by decide)
    (by decide)).1) (by decide)

/-- C7: batch processing filters the directory listing to names whose
lowercase form ends in .png, folds the boolean outcome of process_image
per file into (successful, failed) counters that always sum to the
number of matched files (so one failing image never aborts the batch),
and a directory of 3 PNG files of which exactly one is corrupt yields
(2, 1). -/
theorem claim_C7_batch :
    (∀ (cfg : Config) (openFile : String → Except String Img)
        (files : List String),
      (batchProcess cfg openFile files).1 +
        (batchProcess cfg openFile files).2 =
        (files.filter isPngName).length) ∧
    batchProcess defaultConfig
      (fun f => if f == "corrupt.png" then .error "cannot identify image file"
        else .ok img10)
      ["a.png", "corrupt.png", "b.png"] = (2, 1) := by
  constructor
  · intro cfg openFile files
    have h := batch_count_aux cfg openFile (files.filter isPngName) 0 0
    simpa [batchProcess] using h
  · decide

/-- C9 counterexample: a resized LA-mode (grayscale with alpha) image
carries an alpha channel, but the flatten step checks for mode RGBA
only and leaves it untouched: its fully transparent pixel stays a
transparent gray instead of becoming white, and the result is not a
3-channel RGB image. -/
theorem claim_C9_counterexample :
    hasAlpha (resizeImage imgLA1 (670, 366)).mode = true ∧
    (flattenStep (resizeImage imgLA1 (670, 366))).mode = Mode.LA ∧
    ((flattenStep (resizeImage imgLA1 (670, 366))).pix 0 0).a = 0 ∧
    (flattenStep (resizeImage imgLA1 (670, 366))).pix 0 0 ≠ whitePix := by
  decide

/-- C9 amended: for every resized image in RGBA mode, the flatten step
composites it over opaque white into a 3-channel RGB image of the same
size: a fully transparent pixel becomes pure white and a fully opaque
pixel keeps its 8-bit RGB values; images in other alpha-carrying modes
(LA) skip the flatten step. -/
theorem claim_C9_amended (img : Img) (hm : img.mode = .RGBA) :
    (flattenStep img).mode = Mode.RGB ∧
    (flattenStep img).width = img.width ∧
    (flattenStep img).height = img.height ∧
    (∀ x y, (img.pix x y).a = 0 → (flattenStep img).pix x y = whitePix) ∧
    (∀ x y, (img.pix x y).a = 255 → (img.pix x y).r ≤ 255 →
      (img.pix x y).g ≤ 255 → (img.pix x y).b ≤ 255 →
      ((flattenStep img).pix x y).r = (img.pix x y).r ∧
      ((flattenStep img).pix x y).g = (img.pix x y).g ∧
      ((flattenStep img).pix x y).b = (img.pix x y).b) := by
  have hstep : flattenStep img = flattenWhite img := by
    unfold flattenStep
    rw [hm]
    simp
  rw [hstep]
  refine ⟨rfl, rfl, rfl, ?_, ?_⟩
  · intro x y ha
    simp [flattenWhite, ha, blendChannel_transparent, whitePix]
  · intro x y ha hr hg hb2
    simp only [flattenWhite]
    rw [ha]
    exact ⟨blendChannel_mask255 _ hr, blendChannel_mask255 _ hg,
      blendChannel_mask255 _ hb2⟩

/-- C9 witness: flattening a 2x1 RGBA image turns its fully transparent
pixel white and keeps the RGB values of its fully opaque pixel. -/
theorem claim_C9_witness :
    (flattenStep imgRGBA2).pix 1 0 = whitePix ∧
    ((flattenStep imgRGBA2).pix 0 0).r = 10 ∧
    ((flattenStep imgRGBA2).pix 0 0).g = 20 ∧
    ((flattenStep imgRGBA2).pix 0 0).b = 30 := by
  have h := claim_C9_amended imgRGBA2 rfl
  exact ⟨h.2.2.2.1 1 0 (by decide),
    (h.2.2.2.2 0 0 (by decide) (by decide) (by decide) (by decide)).1,
    (h.2.2.2.2 0 0 (by decide) (by decide) (by decide) (by decide)).2.1,
    (h.2.2.2.2 0 0 (by decide) (by decide) (by decide) (by decide)).2.2⟩

theorem cropImage_ok_mode {img : Img} {l t r b : Int} {c : Img}
    (h : cropImage img l t r b = .ok c) : c.mode = img.mode := by
  unfold cropImage at h
  split at h
  · cases h
  · split at h
    · cases h
    · cases h
      rfl

theorem resizeImage_mode (img : Img) (size : Nat × Nat) :
    (resizeImage img size).mode = img.mode := rfl

/-- C2 counterexample: on a 1x1 grayscale (mode L) input the successful pipeline outcome stays in mode L, while the spec-modelled pipeline
that RGBA-normalizes the input before cropping, resizing and flattening
yields an RGB outcome; the two disagree, so process does not crop,
resize and flatten the RGBA-normalized image. -/
theorem claim_C2_counterexample :
    resultMode (processImageResult defaultConfig (.ok imgL1)) = some Mode.L ∧
    resultMode (processSpecC2 defaultConfig imgL1) = some Mode.RGB ∧
    processImageResult defaultConfig (.ok imgL1) ≠
      processSpecC2 defaultConfig imgL1 := by
  refine ⟨by decide, by decide, fun h => ?_⟩
  have h1 : resultMode (processImageResult defaultConfig (.ok imgL1)) =
      some Mode.L := by decide
  have h2 : resultMode (processSpecC2 defaultConfig imgL1) =
      some Mode.RGB := by decide
  rw [h, h2] at h1
  cases h1

/-- C2 amended: the RGBA normalization happens only inside corner
detection — the locator scans and fallback read the RGBA-converted
pixels, so detection is unchanged by pre-converting the input — while
crop, resize and flatten operate on the original image in its original
mode: a successful outcome keeps the input mode except that RGBA inputs
are flattened to RGB. -/
theorem claim_C2_amended (cfg : Config) (img out : Img)
    (h : processImageResult cfg (.ok img) = .ok out) :
    out.mode = (if img.mode = .RGBA then Mode.RGB else img.mode) ∧
    findBracketIntersections cfg.bracketOffset img =
      findBracketIntersections cfg.bracketOffset (convertRGBA img) := by
  constructor
  · simp only [processImageResult] at h
    rcases hc : cropImage img
        (findBracketIntersections cfg.bracketOffset img).left
        (findBracketIntersections cfg.bracketOffset img).top
        ((findBracketIntersections cfg.bracketOffset img).right + 1)
        ((findBracketIntersections cfg.bracketOffset img).bottom + 1)
      with e | c
    · rw [hc] at h
      cases h
    · rw [hc] at h
      cases h
      rw [flattenStep_mode, resizeImage_mode, cropImage_ok_mode hc]
  · simp only [findBracketIntersections, locatorInput_eq,
      convertRGBA_rgba (convertRGBA img) rfl]

/-- C2 witness: the amended mode law evaluated on the 1x1 grayscale
image, whose successful outcome stays in mode L. -/
theorem claim_C2_witness :
    (outputOf (processImageResult defaultConfig (.ok imgL1)) imgL1).mode =
      (if imgL1.mode = .RGBA then Mode.RGB else imgL1.mode) ∧
    findBracketIntersections defaultConfig.bracketOffset imgL1 =
      findBracketIntersections defaultConfig.bracketOffset (convertRGBA imgL1) :=
  claim_C2_amended defaultConfig imgL1 _ rfl

/-- C1 counterexample: the 1x1 all-white image is entirely background
and the fallback scan does return the degenerate rectangle
(width, height, 0, 0) = (1, 1, 0, 0); but processing it does not report
a failure: the crop box becomes (1, 1, 1, 1), which the Pillow crop
accepts (right is not strictly below left), so the empty crop is
silently resized to the target and the image is reported successful. -/
theorem claim_C1_counterexample :
    isBackground (pixelRGBA imgWhite1 0 0) = true ∧
    findContentBoundsFallback (locatorInput imgWhite1) = ⟨1, 1, 0, 0⟩ ∧
    processImage defaultConfig (.ok imgWhite1) = true := by
  decide

/-- C1 amended: for every image whose pixels are all background, the
fallback scan returns the degenerate rectangle
(width, height, 0, 0), and processing reports a per-image failure
whenever the image has at least two pixels along some axis (the
degenerate crop box is then rejected by the crop step); only a 1x1
all-background image escapes with a silent success. -/
theorem claim_C1_amended (cfg : Config) (img : Img)
    (hbg : ∀ x, x < img.width → ∀ y, y < img.height →
      isBackground (pixelRGBA img x y) = true) :
    findContentBoundsFallback (locatorInput img) =
      ⟨(img.width : Int), (img.height : Int), 0, 0⟩ ∧
    (2 ≤ img.width ∨ 2 ≤ img.height →
      processImage cfg (.ok img) = false) := by
  have hbg2 : ∀ c ∈ allCoords (locatorInput img),
      isBackground ((locatorInput img).pix c.1 c.2) = true := by
    intro c hc
    rw [locatorInput_pix]
    have hm := mem_allCoords.mp hc
    rw [locatorInput_width, locatorInput_height] at hm
    exact hbg c.1 hm.1 c.2 hm.2
  have hfb0 : findContentBoundsFallback (locatorInput img) =
      ⟨((locatorInput img).width : Int), ((locatorInput img).height : Int),
        0, 0⟩ := by
    unfold findContentBoundsFallback
    exact fb_foldl_const _ _ _ hbg2
  rw [locatorInput_width, locatorInput_height] at hfb0
  refine ⟨hfb0, ?_⟩
  intro hdim
  have hnb : ∀ x y, x < img.width → y < img.height →
      isBlack ((locatorInput img).pix x y) = false := by
    intro x y hx hy
    rw [locatorInput_pix]
    have hb := hbg x hx y hy
    simp only [isBackground, Bool.and_eq_true, decide_eq_true_eq] at hb
    have h1 : (pixelRGBA img x y).r ≠ 0 := by omega
    simp [isBlack, h1]
  have htln : topLeftScan (locatorInput img) = none := by
    unfold topLeftScan
    rw [scanFirst_eq_none]
    intro y hy x hx
    have hy2 : y < (locatorInput img).height :=
      lt_of_lt_of_le (List.mem_range.mp hy) (min_le_right _ _)
    have hx2 : x < (locatorInput img).width :=
      lt_of_lt_of_le (List.mem_range.mp hx) (min_le_right _ _)
    rw [locatorInput_width] at hx2
    rw [locatorInput_height] at hy2
    exact hnb x y hx2 hy2
  have hbrn : bottomRightScan (locatorInput img) = none := by
    unfold bottomRightScan
    rw [scanFirst_eq_none]
    intro y hy x hx
    have hy' := mem_downRange.mp hy
    have hx' := mem_downRange.mp hx
    have hy2 : y < (locatorInput img).height := by omega
    have hx2 : x < (locatorInput img).width := by omega
    rw [locatorInput_width] at hx2
    rw [locatorInput_height] at hy2
    exact hnb x y hx2 hy2
  have hfbi : findBracketIntersections cfg.bracketOffset img =
      ⟨(img.width : Int), (img.height : Int), 0, 0⟩ := by
    simp only [findBracketIntersections, htln, hbrn]
    exact hfb0
  simp only [processImage, processImageResult, hfbi]
  unfold cropImage
  by_cases hw : ((0 : Int) + 1 < (img.width : Int))
  · rw [if_pos hw]
  · rw [if_neg hw]
    have hh : ((0 : Int) + 1 < (img.height : Int)) := by
      rcases hdim with h2 | h2 <;> omega
    rw [if_pos hh]

/-- C1 witness: the amended statement evaluated on the 2x2 all-white
image: the fallback is degenerate and processing fails. -/
theorem claim_C1_witness :
    findContentBoundsFallback (locatorInput imgWhite2) = ⟨2, 2, 0, 0⟩ ∧
    processImage defaultConfig (.ok imgWhite2) = false := by
  have h := claim_C1_amended defaultConfig imgWhite2 (by decide)
  exact ⟨h.1, h.2 (Or.inl (by decide))⟩

/-- C10: on any image with at least one non-background pixel, the
fallback scan returns exactly the componentwise min/max bounding box of
the non-background pixels: it encloses every such pixel, each side is
attained by one of them, and the rectangle lies inside the image with
0 <= left <= right <= width-1 and 0 <= top <= bottom <= height-1. -/
theorem claim_C10_fallback_bounds (img : Img)
    (hne : ∃ x y, x < img.width ∧ y < img.height ∧
      isBackground (img.pix x y) = false) :
    fallbackCharacter img (findContentBoundsFallback img) := by
  obtain ⟨x0, y0, hx0, hy0, hb0⟩ := hne
  have hmem0 : ((x0, y0) : Nat × Nat) ∈ allCoords img :=
    mem_allCoords.mpr ⟨hx0, hy0⟩
  have henc : ∀ (c : Nat × Nat), c ∈ allCoords img →
      isBackground (img.pix c.1 c.2) = false →
      (findContentBoundsFallback img).left ≤ (c.1 : Int) ∧
      (c.1 : Int) ≤ (findContentBoundsFallback img).right ∧
      (findContentBoundsFallback img).top ≤ (c.2 : Int) ∧
      (c.2 : Int) ≤ (findContentBoundsFallback img).bottom := by
    intro c hc hb
    exact fb_foldl_encloses img (allCoords img) hb _ hc
  obtain ⟨hpl, hpr, hpt, hpb⟩ := fb_foldl_provenance img (allCoords img)
    ⟨(img.width : Int), (img.height : Int), 0, 0⟩
  dsimp only at hpl hpr hpt hpb
  have hfold : findContentBoundsFallback img =
      (allCoords img).foldl (fbStep img)
        ⟨(img.width : Int), (img.height : Int), 0, 0⟩ := rfl
  rw [← hfold] at hpl hpr hpt hpb
  have he0 := henc (x0, y0) hmem0 hb0
  obtain ⟨he1, he2, he3, he4⟩ := he0
  refine ⟨⟨?_, ?_, ?_, ?_, ?_, ?_⟩, ?_, ?_, ?_, ?_, ?_⟩
  · rcases hpl with h | ⟨c, _, _, he⟩
    · omega
    · omega
  · omega
  · rcases hpr with h | ⟨c, hc, _, he⟩
    · omega
    · have hcw := (mem_allCoords.mp hc).1
      omega
  · rcases hpt with h | ⟨c, _, _, he⟩
    · omega
    · omega
  · omega
  · rcases hpb with h | ⟨c, hc, _, he⟩
    · omega
    · have hch := (mem_allCoords.mp hc).2
      omega
  · intro x y hx hy hb
    exact henc (x, y) (mem_allCoords.mpr ⟨hx, hy⟩) hb
  · rcases hpl with h | ⟨c, hc, hb, he⟩
    · exfalso
      omega
    · exact ⟨c.1, c.2, (mem_allCoords.mp hc).1, (mem_allCoords.mp hc).2, hb, he⟩
  · rcases hpr with h | ⟨c, hc, hb, he⟩
    · exact ⟨x0, y0, hx0, hy0, hb0, by omega⟩
    · exact ⟨c.1, c.2, (mem_allCoords.mp hc).1, (mem_allCoords.mp hc).2, hb, he⟩
  · rcases hpt with h | ⟨c, hc, hb, he⟩
    · exfalso
      omega
    · exact ⟨c.1, c.2, (mem_allCoords.mp hc).1, (mem_allCoords.mp hc).2, hb, he⟩
  · rcases hpb with h | ⟨c, hc, hb, he⟩
    · exact ⟨x0, y0, hx0, hy0, hb0, by omega⟩
    · exact ⟨c.1, c.2, (mem_allCoords.mp hc).1, (mem_allCoords.mp hc).2, hb, he⟩

/-- C10 witness: the bounding-box characterization evaluated on the
10x10 bracket image, whose non-background pixels are (0,0) and (9,9). -/
theorem claim_C10_witness :
    fallbackCharacter img10 (findContentBoundsFallback img10) :=
  claim_C10_fallback_bounds img10 ⟨0, 0, by decide, by decide, by decide⟩

/-- C3 counterexample: on a 100x100 image whose single black pixel is
(50,50), the window claimed by the spec (bottommost min(50,100) = 50
rows 50..99 and rightmost 50 columns 50..99) contains that pixel and a
scan over it finds it, but the bottom-right scan in the code — Python
range(99, 50, -1), rows and columns 99 down to 51 only — returns no
candidate. -/
theorem claim_C3_counterexample :
    isBlack ((locatorInput img100).pix 50 50) = true ∧
    claimedBottomRightScan (locatorInput img100) = some (50, 50) ∧
    bottomRightScan (locatorInput img100) = none := by
  decide

/-- C3 amended: the top-left window is as claimed, a square of side
min(50, dimension) anchored at (0,0); but each scan range anchored at
the right or bottom edge excludes its far index (the exclusive stop of a Python range): the bottom-right scan visits exactly the rows y with
height-50 < y <= height-1 and the columns x with
width-50 < x <= width-1 (49 rows and columns for a 100x100 image, and
all but row/column 0 when the dimension is at most 50), and likewise
for the columns of the top-right scan and the rows of the bottom-left
scan. -/
theorem claim_C3_amended (img : Img) :
    (∀ p, topLeftScan img = some p →
      p.1 < min 50 img.width ∧ p.2 < min 50 img.height ∧
        isBlack (img.pix p.1 p.2) = true) ∧
    (topLeftScan img = none ↔
      ∀ x, x < min 50 img.width → ∀ y, y < min 50 img.height →
        isBlack (img.pix x y) = false) ∧
    (∀ p, bottomRightScan img = some p →
      img.width - 50 < p.1 ∧ p.1 ≤ img.width - 1 ∧
        img.height - 50 < p.2 ∧ p.2 ≤ img.height - 1 ∧
        isBlack (img.pix p.1 p.2) = true) ∧
    (bottomRightScan img = none ↔
      ∀ x, img.width - 50 < x → x ≤ img.width - 1 →
        ∀ y, img.height - 50 < y → y ≤ img.height - 1 →
          isBlack (img.pix x y) = false) ∧
    (∀ p, topRightScan img = some p →
      img.width - 50 < p.1 ∧ p.1 ≤ img.width - 1 ∧
        p.2 < min 50 img.height ∧ isBlack (img.pix p.1 p.2) = true) ∧
    (∀ p, bottomLeftScan img = some p →
      p.1 < min 50 img.width ∧ img.height - 50 < p.2 ∧
        p.2 ≤ img.height - 1 ∧ isBlack (img.pix p.1 p.2) = true) := by
  refine ⟨?_, ?_, ?_, ?_, ?_, ?_⟩
  · intro p hp
    obtain ⟨hx, hy, hb⟩ := scanFirst_mem hp
    exact ⟨List.mem_range.mp hx, List.mem_range.mp hy, hb⟩
  · unfold topLeftScan
    rw [scanFirst_eq_none]
    constructor
    · intro h x hx y hy
      exact h y (List.mem_range.mpr hy) x (List.mem_range.mpr hx)
    · intro h y hy x hx
      exact h x (List.mem_range.mp hx) y (List.mem_range.mp hy)
  · intro p hp
    obtain ⟨hx, hy, hb⟩ := scanFirst_mem hp
    have hx' := mem_downRange.mp hx
    have hy' := mem_downRange.mp hy
    exact ⟨hx'.1, hx'.2, hy'.1, hy'.2, hb⟩
  · unfold bottomRightScan
    rw [scanFirst_eq_none]
    constructor
    · intro h x hx1 hx2 y hy1 hy2
      exact h y (mem_downRange.mpr ⟨hy1, hy2⟩) x (mem_downRange.mpr ⟨hx1, hx2⟩)
    · intro h y hy x hx
      have hy' := mem_downRange.mp hy
      have hx' := mem_downRange.mp hx
      exact h x hx'.1 hx'.2 y hy'.1 hy'.2
  · intro p hp
    obtain ⟨hx, hy, hb⟩ := scanFirst_mem hp
    have hx' := mem_downRange.mp hx
    exact ⟨hx'.1, hx'.2, List.mem_range.mp hy, hb⟩
  · intro p hp
    obtain ⟨hx, hy, hb⟩ := scanFirst_mem hp
    have hy' := mem_downRange.mp hy
    exact ⟨List.mem_range.mp hx, hy'.1, hy'.2, hb⟩

/-- C3 witness: the bottom-right candidate (790, 590) found on the
800x600 scenario image lies in the corrected window and is black. -/
theorem claim_C3_witness :
    800 - 50 < 790 ∧ 790 ≤ 800 - 1 ∧ 600 - 50 < 590 ∧ 590 ≤ 600 - 1 ∧
    isBlack ((locatorInput img800).pix 790 590) = true :=
  (claim_C3_amended (locatorInput img800)).2.2.1 (790, 590) (by decide)

end GridProc
